import Mathlib

/-!
Popquiz-Ai — verification of the distributed game-state core

Shallow embedding of the peer-to-peer trivia game's core logic:

* the fuzzy answer matcher (`levenshtein`, `isAbbreviation`,
  `checkSingleSimilarity`, `checkAnswer`) from `components/GameRound.tsx`
  (source file `src/unnamed/part_005`), and
* the replicated game state with the host-side handlers
  (`handlePlayerAction`, `processNextRound`, the game-loop tick,
  `handleNetworkMessage`'s JOIN_REQUEST / STATE_UPDATE cases,
  `handleUpdateSettings`, `handleToggleReady`) from `App.tsx`
  (source file `src/unnamed/part_001`).

Strings are modelled by Lean `String` / `List Char`; JavaScript numbers by
`Nat` / `Int` (all quantities involved — scores, timestamps in milliseconds,
indices — are integers in the source); the similarity ratio by `Rat`, which
models the source's floating-point ratio exactly on the ranges involved
(numerators and denominators are tiny, and the thresholds 0.75 = 3/4 and
0.80 = 4/5 are compared against ratios whose distance from the threshold,
when nonzero, vastly exceeds double rounding error).
-/

namespace Popquiz

/-! ## Character-level helpers for the fuzzy matcher

The source normalizes guesses with
`s.trim().toLowerCase().replace(/[^a-z0-9]/g, '')`.
`jsLower` models `toLowerCase` on the ASCII letters (the only characters
that both get lowercased and survive the subsequent strip; every
non-ASCII character is removed by the `[^a-z0-9]` strip regardless).
-/

/-- ASCII lowercasing, modelling `String.prototype.toLowerCase` on the
characters that matter to the matcher (`A`–`Z` map to `a`–`z`). -/
def jsLower (c : Char) : Char :=
  if 65 ≤ c.toNat ∧ c.toNat ≤ 90 then Char.ofNat (c.toNat + 32) else c

/-- Does the character survive the strip `replace(/[^a-z0-9]/g, '')`,
i.e. is it `a`–`z` (97–122) or `0`–`9` (48–57)? -/
def isKeep (c : Char) : Bool :=
  decide ((97 ≤ c.toNat ∧ c.toNat ≤ 122) ∨ (48 ≤ c.toNat ∧ c.toNat ≤ 57))

/-- ASCII whitespace, modelling the `\s` class and `trim()` on the
characters relevant here (space and the control whitespace 9–13). -/
def isWs (c : Char) : Bool :=
  decide (c.toNat = 32 ∨ (9 ≤ c.toNat ∧ c.toNat ≤ 13))

/-- Separator class of the word split `split(/[\s\-_]+/)`:
whitespace, `-` (45) or `_` (95). -/
def isSep (c : Char) : Bool :=
  isWs c || c.toNat == 45 || c.toNat == 95

/-- Model of `trim()`: drop whitespace from both ends. -/
def trimChars (l : List Char) : List Char :=
  ((l.dropWhile isWs).reverse.dropWhile isWs).reverse

/-- Model of `input.trim().toLowerCase().replace(/[^a-z0-9]/g, '')` on character
lists.  The leading `trim()` is omitted because the final strip removes
every whitespace character anyway (whitespace is not in `[a-z0-9]`), so it
never changes the result. -/
def normChars (l : List Char) : List Char :=
  (l.map jsLower).filter isKeep

/-- String wrapper for the guess/answer normalization. -/
def normalize (s : String) : String :=
  ⟨normChars s.data⟩

/-- Model of `target.trim().toLowerCase()` — the partial cleaning `isAbbreviation`
applies to its `target` argument (note: no strip of non-alphanumerics). -/
def trimLower (l : List Char) : List Char :=
  (trimChars l).map jsLower

/-- Model of `t.startsWith(sub)` on character lists. -/
def startsWithB : List Char → List Char → Bool
  | _, [] => true
  | [], _ :: _ => false
  | c :: cs, d :: ds => c == d && startsWithB cs ds

/-- Model of `t.includes(sub)` on character lists: contiguous-substring test. -/
def containsSub : List Char → List Char → Bool
  | t, sub =>
    if startsWithB t sub then true
    else match t with
      | [] => false
      | _ :: ts => containsSub ts sub

/-! ## Levenshtein distance

The source fills the classic dynamic-programming matrix
(`matrix[i][j]` = distance between the length-`i` prefix of `b` and the
length-`j` prefix of `a`) row by row.  `levAux` computes row `i` from row
`i-1`: for each position `j ≥ 1`, `diag = matrix[i-1][j-1]`,
`up = matrix[i-1][j]`, `left = matrix[i][j-1]`, and the cell is `diag`
when the characters match and `1 + min diag (min left up)` otherwise —
exactly the source's recurrence
`min(matrix[i-1][j-1]+1, min(matrix[i][j-1]+1, matrix[i-1][j]+1))`. -/

/-- One DP step: given `b`'s character `c` for row `i`, the remaining
characters of `a`, the cell to the left, and the tail of row `i-1`
starting at column `j-1`, produce the cells `j, j+1, …` of row `i`. -/
def levAux (c : Char) : List Char → Nat → List Nat → List Nat
  | [], _, _ => []
  | _ :: _, _, [] => []
  | a :: as, left, diag :: restOld =>
    let up := restOld.headD 0
    let v := if c == a then diag else 1 + min diag (min left up)
    v :: levAux c as v restOld

/-- Edit distance `levenshtein(a, b)` of the source: the bottom-right cell
`matrix[b.length][a.length]` of the DP matrix.  Row 0 is `[0, …, a.length]`;
each subsequent row `i` is `i :: levAux bᵢ a i (row i-1)`. -/
def levenshtein (a b : List Char) : Nat :=
  let row0 := List.range (a.length + 1)
  let final := b.foldl
    (fun (st : Nat × List Nat) c => (st.1 + 1, (st.1 + 1) :: levAux c a (st.1 + 1) st.2))
    (0, row0)
  final.2.getLastD 0

/-! ## The matcher itself (`src/unnamed/part_005`, lines 29–103) -/

/-- The `inputIdx` loop of `isAbbreviation`: for each word, if the current
input character matches the word's first letter, advance; stop early once
the whole input is consumed (`if (inputIdx >= cleanInput.length) break`). -/
def abbrevLoop (ci : List Char) : List (List Char) → Nat → Nat
  | [], idx => idx
  | w :: ws, idx =>
    if ci.length ≤ idx then idx
    else if w.head? == ci.get? idx then abbrevLoop ci ws (idx + 1)
    else abbrevLoop ci ws idx

/-- Split `cleanTarget` into words: `split(/[\s\-_]+/)` followed by the
source's `.filter(w => w.length > 0)`.  Splitting on every single
separator and dropping empty segments is the same as splitting on
separator runs and dropping the boundary empties. -/
def wordsAux : List Char → List Char → List (List Char)
  | [], acc => [acc.reverse]
  | c :: cs, acc =>
    if isSep c then acc.reverse :: wordsAux cs [] else wordsAux cs (c :: acc)

/-- The `targetWords` split of `isAbbreviation`. -/
def splitWords (l : List Char) : List (List Char) :=
  (wordsAux l []).filter (fun w => 0 < w.length)

/-- Model of `isAbbreviation(input, target)` (part_005 lines 29–59).  `input` is
re-normalized in full; `target` only gets `trim().toLowerCase()`.  The three
`return true` sites (initialism / first-letters loop, substring of length
≥ 2, prefix of length ≥ 3) become a disjunction — each branch only ever
returns `true`, falling through otherwise. -/
def isAbbreviation (input target : String) : Bool :=
  let ci := normChars input.data
  let ct := trimLower target.data
  if ci.length == 0 || ct.length == 0 then false
  else
    let targetWords := splitWords ct
    let branchA :=
      if 1 < targetWords.length ∧ ci.length ≤ targetWords.length then
        let initials := targetWords.map (fun w => w.headD ' ')
        let idx := abbrevLoop ci targetWords 0
        initials == ci || (idx == ci.length && decide (idx ≤ targetWords.length))
      else false
    branchA
      || (containsSub ct ci && decide (2 ≤ ci.length))
      || (startsWithB ct ci && decide (3 ≤ ci.length))

/-- Model of `checkSingleSimilarity(input, target)` (part_005 lines 61–88):
normalize both, special-case empty target and exact match, then the
abbreviation rules, then thresholded edit-distance similarity
`similarity = (maxLength - dist) / maxLength` — `dist ≤ 1` for
`maxLength ≤ 3`, `similarity ≥ 0.75` for `maxLength ≥ 10`,
`similarity ≥ 0.80` otherwise.  In these branches `maxLength > 3 > 0`, so
`(maxLength - dist) / maxLength ≥ 3/4` is exactly `3·maxLength ≤
4·(maxLength - dist)` and likewise for `4/5`; the comparisons are stated
in that cross-multiplied integer form (over `Int`, so a distance larger
than `maxLength` would still behave like the source's negative ratio). -/
def checkSingleSimilarity (input target : String) : Bool :=
  let ci := normChars input.data
  let ct := normChars target.data
  if ct.length == 0 then false
  else if ci == ct then true
  else if isAbbreviation ⟨ci⟩ ⟨ct⟩ then true
  else
    let dist := levenshtein ci ct
    let maxLength := max ci.length ct.length
    if maxLength ≤ 3 then decide (dist ≤ 1)
    else if 10 ≤ maxLength then
      decide (3 * (maxLength : Int) ≤ 4 * ((maxLength : Int) - (dist : Int)))
    else
      decide (4 * (maxLength : Int) ≤ 5 * ((maxLength : Int) - (dist : Int)))

/-! ## Question data and `checkAnswer` -/

/-- A trivia question (the fields of the `Question` interface used by the
matcher; `content`, `questionText`, `category`, `imageType` are payload the
matcher never reads). -/
structure Question where
  id : String
  qtype : String
  content : String
  questionText : Option String := none
  answer : String
  acceptedAnswers : Option (List String) := none
  category : Option String := none
  imageType : Option String := none
  deriving DecidableEq, Repr

/-- Model of `checkAnswer(input, question)` (part_005 lines 90–103): the canonical
answer first; if the alias list is present and non-empty its result is
returned directly (`return …some(…)` — no fall-through); otherwise a last
raw `isAbbreviation` check against the canonical answer. -/
def checkAnswer (input : String) (q : Question) : Bool :=
  if checkSingleSimilarity input q.answer then true
  else
    match q.acceptedAnswers with
    | some aliases =>
      if 0 < aliases.length then aliases.any (fun al => checkSingleSimilarity input al)
      else isAbbreviation input q.answer
    | none => isAbbreviation input q.answer

/-- Question no. 6 of `DEFAULT_QUESTIONS` (`constants.ts`): the emoji
rebus whose answer is `"Titanic"`. -/
def titanicQ : Question :=
  { id := "6", qtype := "text", content := "🚢🧊💔🎻", answer := "Titanic",
    category := some "Movies" }

/-! ## Replicated game state (`types.ts` and `src/unnamed/part_001`) -/

/-- The `GameStatus` union. -/
inductive GameStatus
  | landing | lobby | generating | playing | round_result | game_over
  deriving DecidableEq, Repr

/-- The `deckType` field of `GameSettings`. -/
inductive DeckType
  | classic | ai
  deriving DecidableEq, Repr

/-- The `GameSettings` record: `roundDuration` is in seconds, timestamps below are in
milliseconds. -/
structure GameSettings where
  roundDuration : Nat
  pointsToWin : Nat
  deckType : DeckType
  aiTopic : String
  deriving DecidableEq, Repr

/-- The `Player` record.  `answerTime` is kept in milliseconds: the source stores
`Math.round(((now - roundStartTime) / 1000) * 1000) / 1000`, i.e. exactly
`(now - roundStartTime)` msec expressed in seconds to three decimals. -/
structure Player where
  id : String
  name : String
  avatar : String
  score : Nat
  streak : Nat
  isHost : Bool
  isReady : Bool
  hasAnsweredRound : Bool
  lastWrongGuess : Option String := none
  finalAnswer : Option String := none
  answerTime : Option Int := none
  isBot : Bool := false
  deriving DecidableEq, Repr

/-- The replicated snapshot `GameState`. -/
structure GameState where
  roomId : String
  status : GameStatus
  players : List Player
  currentQuestionIndex : Nat
  questions : List Question
  settings : GameSettings
  roundStartTime : Int
  deriving DecidableEq, Repr

/-- Model of `isLocalHost(players)` (part_001 lines 350–353): the peer is host iff
the player entry flagged `isHost` in the local player list carries the
local id (`players.find(p => p.isHost)?.id === localPlayerId`). -/
def isLocalHost (localId : String) (players : List Player) : Bool :=
  match players.find? (fun p => p.isHost) with
  | some h => h.id == localId
  | none => false

/-- The three `PLAYER_ACTION` kinds.  `handlePlayerAction` is a no-op for
any other action string, so nothing is lost by enumerating these. -/
inductive PAction
  | readyToggle | answerCorrect | answerWrong
  deriving DecidableEq, Repr

/-- Model of `handlePlayerAction(playerId, action, data)` (part_001 lines 356–405),
with the wall clock `Date.now()` passed in as `now`.
* `READY_TOGGLE` flips `isReady` of the matching player.
* `ANSWER_CORRECT` applies only when the player is found with
  `hasAnsweredRound` still `false`; it then adds 10 to `score`, sets
  `hasAnsweredRound`, records `answerTime = now - roundStartTime` (msec,
  see `Player.answerTime`) and `finalAnswer = data || undefined` (an empty
  string is stored as `undefined`).
* `ANSWER_WRONG` records the guess in `lastWrongGuess` and `finalAnswer`.
When no branch fires (`stateChanged` stays false) the state is returned
unchanged and nothing is broadcast. -/
def handlePlayerAction (s : GameState) (playerId : String) (a : PAction)
    (data : String) (now : Int) : GameState :=
  match a with
  | .readyToggle =>
    { s with players := s.players.map (fun p =>
        if p.id == playerId then { p with isReady := !p.isReady } else p) }
  | .answerCorrect =>
    match s.players.find? (fun p => p.id == playerId) with
    | some pl =>
      if pl.hasAnsweredRound then s
      else
        { s with players := s.players.map (fun p =>
            if p.id == playerId then
              { p with score := p.score + 10, hasAnsweredRound := true,
                       answerTime := some (now - s.roundStartTime),
                       finalAnswer := if data == "" then none else some data }
            else p) }
    | none => s
  | .answerWrong =>
    { s with players := s.players.map (fun p =>
        if p.id == playerId then
          { p with lastWrongGuess := some data, finalAnswer := some data }
        else p) }

/-- One tick of the host game loop (part_001 lines 408–428 together with
`handleRoundEnd`, lines 462–474): while `status === 'playing'`, if every
player has `hasAnsweredRound` or `elapsed = (now - roundStartTime)/1000`
is at least `settings.roundDuration` (seconds, hence the `* 1000`), the
round ends — `handleRoundEnd` sets `status := round_result` (its
`checkForMoreQuestions()` call only kicks off asynchronous background
question generation and changes nothing synchronously; `processNextRound`
runs 3 seconds later and is modelled separately). -/
def gameLoopTick (s : GameState) (now : Int) : GameState :=
  if s.status == .playing then
    let allAnswered := s.players.all (fun p => p.hasAnsweredRound)
    let timeUp := decide ((s.settings.roundDuration : Int) * 1000 ≤ now - s.roundStartTime)
    if allAnswered || timeUp then { s with status := .round_result } else s
  else s

/-- The `isGameOver` computation of `processNextRound()` (part_001 lines
476–501).  `potentialWinners` are the players with
`score >= pointsToWin`; with exactly one the game is over; with several,
the source sorts them by descending score, reads the top score (i.e. the
maximum, computed here by a fold) and ends the game iff exactly one of
them attains it.  Independently, the game also ends when
`currentQuestionIndex >= questions.length - 1` (the next index would step
beyond the list; for `questions = []` the JavaScript comparison against
`-1` is true, as is the truncated `Nat` comparison against `0`). -/
def isGameOverCheck (s : GameState) : Bool :=
  let potentialWinners := s.players.filter (fun p => decide (s.settings.pointsToWin ≤ p.score))
  let isGameOver₀ :=
    if potentialWinners.length == 1 then true
    else if 1 < potentialWinners.length then
      let topScore := potentialWinners.foldl (fun m p => max m p.score) 0
      (potentialWinners.filter (fun p => p.score == topScore)).length == 1
    else false
  isGameOver₀ || decide (s.questions.length - 1 ≤ s.currentQuestionIndex)

/-- Model of `processNextRound()` (part_001 lines 476–525), with the wall clock for
the fresh `roundStartTime` passed as `now`: on `isGameOver` the status
becomes `game_over`; otherwise every player's per-round fields are reset,
the index advances and a fresh round starts. -/
def processNextRound (s : GameState) (now : Int) : GameState :=
  if isGameOverCheck s then { s with status := .game_over }
  else
    { s with
      players := s.players.map (fun p =>
        { p with hasAnsweredRound := false, lastWrongGuess := none,
                 answerTime := none, finalAnswer := none }),
      currentQuestionIndex := s.currentQuestionIndex + 1,
      status := .playing,
      roundStartTime := now }

/-- The `JOIN_REQUEST` case of `handleNetworkMessage` (part_001 lines
212–282).  Returns the new state together with whether the handler
initiates the `STATE_UPDATE` send (`sendStateUpdate()`); messages from the
peer itself, messages without a sender id, messages on a non-host peer and
payloads with a missing/empty name or avatar are dropped.  A sender id
already in the player list leaves the state unchanged and sends nothing
(only brand-new players trigger the append and the state broadcast). -/
def handleJoinRequest (localId : String) (s : GameState)
    (senderId name avatar : String) : GameState × Bool :=
  if senderId == localId then (s, false)
  else if senderId == "" then (s, false)
  else if !isLocalHost localId s.players then (s, false)
  else if name == "" || avatar == "" then (s, false)
  else
    let newPlayer : Player :=
      { id := senderId, name := name, avatar := avatar, score := 0, streak := 0,
        isHost := false, isReady := false, hasAnsweredRound := false, isBot := false }
    if s.players.any (fun p => p.id == newPlayer.id) then (s, false)
    else ({ s with players := s.players ++ [newPlayer] }, true)

/-- The `STATE_UPDATE` case of `handleNetworkMessage` (part_001 lines
284–301).  Own messages are ignored; the update is accepted iff the peer
does not resolve itself as host, or has an empty player list (the third
`shouldAcceptUpdate` disjunct, `lobby` with no players, is subsumed by the
second but kept as in the source).  Accepting replaces the whole snapshot:
`updateState(msg.payload)` spreads a complete `GameState` over the current
one, overwriting every field. -/
def applyStateUpdate (localId : String) (s : GameState)
    (payload : GameState) (senderId : String) : GameState :=
  if senderId == localId then s
  else if !isLocalHost localId s.players || s.players.length == 0
          || (s.status == .lobby && s.players.length == 0) then payload
  else s

/-- Model of `handleUpdateSettings(newSettings)` (part_001 lines 615–619): only the
host check guards it — there is no check of `status`. -/
def handleUpdateSettings (localId : String) (s : GameState)
    (newSettings : GameSettings) : GameState :=
  if isLocalHost localId s.players then { s with settings := newSettings } else s

/-- Model of `handleToggleReady()` (part_001 lines 621–647): if the local player is
present, the *local* copy is updated immediately ("optimistic update"),
flipping that player's `isReady` — on host and guest alike; only
afterwards does a guest send the `READY_TOGGLE` action to the host. -/
def handleToggleReady (localId : String) (s : GameState) : GameState :=
  match s.players.find? (fun p => p.id == localId) with
  | none => s
  | some _ =>
    { s with players := s.players.map (fun p =>
        if p.id == localId then { p with isReady := !p.isReady } else p) }

/-- Model of `handleUpdatePlayer(name, avatar)` (part_001 lines 588–612),
the snapshot-touching part: the local-storage writes live outside the
replicated state.  `findIndex` locates the first entry with the local id;
if present (`playerIndex !== -1`) that single entry is replaced by a copy
with the new `name` and `avatar`; afterwards a host broadcasts while a
guest sends a `PLAYER_UPDATE` message — in both cases the *local* copy has
already been mutated.  The inner `none` branch is unreachable (the index
returned by `findIndex` is always in range) and returns `s` as a
placeholder. -/
def handleUpdatePlayer (localId : String) (s : GameState)
    (name avatar : String) : GameState :=
  match s.players.findIdx? (fun p => p.id == localId) with
  | none => s
  | some i =>
    match s.players[i]? with
    | some p =>
      { s with players := s.players.set i { p with name := name, avatar := avatar } }
    | none => s

/-- The `PLAYER_ACTION` case of `handleNetworkMessage` (part_001 lines
303–312): own messages are ignored and only a peer that resolves itself
as host runs `handlePlayerAction`; on any other peer the message leaves
the state untouched. -/
def handlePlayerActionMsg (localId : String) (s : GameState) (senderId : String)
    (a : PAction) (data : String) (now : Int) : GameState :=
  if senderId == localId then s
  else if isLocalHost localId s.players then handlePlayerAction s senderId a data now
  else s

/-- The `PLAYER_UPDATE` case of `handleNetworkMessage` (part_001 lines
325–338): own messages are ignored; only the host applies it, and only
with a non-empty sender id, name and avatar, rewriting the sender's
entries; on a non-host peer the message leaves the state untouched. -/
def handlePlayerUpdateMsg (localId : String) (s : GameState)
    (senderId pname pavatar : String) : GameState :=
  if senderId == localId then s
  else if isLocalHost localId s.players then
    if senderId == "" || pname == "" || pavatar == "" then s
    else { s with players := s.players.map (fun p =>
        if p.id == senderId then { p with name := pname, avatar := pavatar } else p) }
  else s

/-! ## In-game step sequences (for the score-monotonicity claim) -/

/-- One host-side in-game step: an accepted `PLAYER_ACTION`, a game-loop
tick (possible transition to `round_result`), or the deferred
`processNextRound` evaluation. -/
inductive HStep
  | act (pid : String) (a : PAction) (data : String) (now : Int)
  | tick (now : Int)
  | next (now : Int)
  deriving Repr

/-- Apply one step. -/
def applyStep (s : GameState) : HStep → GameState
  | .act pid a data now => handlePlayerAction s pid a data now
  | .tick now => gameLoopTick s now
  | .next now => processNextRound s now

/-- Apply a sequence of in-game steps in order. -/
def applySteps (s : GameState) (steps : List HStep) : GameState :=
  steps.foldl applyStep s

/-- The score of the `i`-th player (0 when out of range). -/
def scoreAt (s : GameState) (i : Nat) : Nat :=
  ((s.players[i]?).map Player.score).getD 0

/-! ## Concrete fixtures used by witnesses and counterexamples -/

/-- Default settings (`INITIAL_SETTINGS`, part_001 lines 14–19). -/
def settingsW : GameSettings :=
  { roundDuration := 15, pointsToWin := 50, deckType := .classic, aiTopic := "" }

/-- A host player record as created by `handleCreateGame`. -/
def hostW : Player :=
  { id := "h", name := "Host", avatar := "H", score := 0, streak := 0,
    isHost := true, isReady := true, hasAnsweredRound := false }

/-- A guest player record as appended by the join handler. -/
def guestW : Player :=
  { id := "g", name := "Guest", avatar := "G", score := 0, streak := 0,
    isHost := false, isReady := false, hasAnsweredRound := false }

/-- A small in-game state: host and guest playing round 0 of the default
deck's first three questions, round started at time 1000. -/
def stateW : GameState :=
  { roomId := "ROOM", status := .playing, players := [hostW, guestW],
    currentQuestionIndex := 0,
    questions := [titanicQ, { titanicQ with id := "7" }, { titanicQ with id := "8" }],
    settings := settingsW, roundStartTime := 1000 }

/-- Alternative settings used to exhibit a settings change. -/
def settingsAlt : GameSettings :=
  { roundDuration := 30, pointsToWin := 100, deckType := .classic, aiTopic := "" }

/-- A guest's local view of a lobby: host and guest present, the local
peer being the guest `"g"`. -/
def lobbyW : GameState :=
  { roomId := "ROOM", status := .lobby, players := [hostW, guestW],
    currentQuestionIndex := 0, questions := [titanicQ],
    settings := settingsW, roundStartTime := 0 }

/-- Witness for C4, on a freshly created room (host alone): after two
identical join requests from `"g"` the handler has appended `"g"` once. -/
def soloLobbyW : GameState :=
  { roomId := "ROOM", status := .lobby, players := [hostW],
    currentQuestionIndex := 0, questions := [titanicQ],
    settings := settingsW, roundStartTime := 0 }

/-- The state used to refute the claim: two players above the
50-point threshold with distinct scores (60 and 50), questions not
exhausted. -/
def leaderW : GameState :=
  { roomId := "ROOM", status := .round_result,
    players := [{ hostW with score := 60 }, { guestW with score := 50 }],
    currentQuestionIndex := 0,
    questions := [titanicQ, { titanicQ with id := "7" }, { titanicQ with id := "8" }],
    settings := settingsW, roundStartTime := 1000 }

/-- Both players tied at the 50-point threshold, questions not
exhausted. -/
def tieW : GameState :=
  { leaderW with players := [{ hostW with score := 50 }, { guestW with score := 50 }] }

/-- A degenerate question whose canonical answer normalizes to the empty
string. -/
def mysteryQ : Question :=
  { id := "x", qtype := "text", content := "???", answer := "???" }

/-! ## C3 — round-advance condition -/

/-- Claim C3.  From a `playing` state, a host game-loop tick transitions the
status to `round_result` iff every player has `hasAnsweredRound = true` or
the elapsed time `now - roundStartTime` is at least
`roundDuration` seconds; all-answered ends the round regardless of
elapsed time, and time-up ends it even if nobody answered. -/
theorem tick_ends_round_iff (s : GameState) (now : Int)
    (h : s.status = GameStatus.playing) :
    (gameLoopTick s now).status = GameStatus.round_result ↔
      ((∀ p ∈ s.players, p.hasAnsweredRound = true) ∨
        (s.settings.roundDuration : Int) * 1000 ≤ now - s.roundStartTime) := by
  unfold gameLoopTick
  rw [h]
  by_cases hc : (s.players.all (fun p => p.hasAnsweredRound) = true ∨
      (s.settings.roundDuration : Int) * 1000 ≤ now - s.roundStartTime)
  · have : ((List.all s.players fun p => p.hasAnsweredRound) ||
        decide ((s.settings.roundDuration : Int) * 1000 ≤ now - s.roundStartTime)) = true := by
      rcases hc with hc | hc
      · simp [hc]
      · simp [hc]
    simp only [beq_self_eq_true, if_true, this]
    simpa [List.all_eq_true] using hc
  · have : ((List.all s.players fun p => p.hasAnsweredRound) ||
        decide ((s.settings.roundDuration : Int) * 1000 ≤ now - s.roundStartTime)) = false := by
      push_neg at hc
      simp [hc.1, hc.2]
    simp only [beq_self_eq_true, if_true, this, if_neg Bool.false_ne_true]
    constructor
    · intro hx; rw [h] at hx; cases hx
    · intro hx
      exfalso
      apply hc
      simpa [List.all_eq_true] using hx

/-- Witness for C3: in `stateW` nobody has answered, and 15 s after the
round start (time 16000 ≥ 1000 + 15·1000) the tick ends the round. -/
theorem tick_ends_round_iff_witness :
    (gameLoopTick stateW 16000).status = GameStatus.round_result :=
  (tick_ends_round_iff stateW 16000 rfl).mpr (Or.inr (by decide))

/-! ## C8 — who may change the settings -/

/-- Claim C8, counterexample.  The claim says settings never change unless
the requester is host *and* the status is `lobby`.  But
`handleUpdateSettings` only checks the host predicate: in the playing
state `stateW` (status ≠ `lobby`) the host's request does change the
settings. -/
theorem settings_change_outside_lobby :
    stateW.status ≠ GameStatus.lobby ∧
      isLocalHost "h" stateW.players = true ∧
      (handleUpdateSettings "h" stateW settingsAlt).settings = settingsAlt ∧
      settingsAlt ≠ stateW.settings := by
  refine ⟨by decide, by decide, by decide, by decide⟩

/-- Claim C8, amended.  The settings field changes only when the requesting
peer resolves itself as host: a non-host request leaves the state
untouched, and a host request installs the new settings whatever the
status is (the lobby-only restriction lives in the UI, which only renders
the settings controls in the lobby, not in this handler). -/
theorem settings_host_gated (localId : String) (s : GameState) (ns : GameSettings) :
    (isLocalHost localId s.players = false → handleUpdateSettings localId s ns = s) ∧
      (isLocalHost localId s.players = true →
        handleUpdateSettings localId s ns = { s with settings := ns }) := by
  constructor
  · intro h; simp [handleUpdateSettings, h]
  · intro h; simp [handleUpdateSettings, h]

/-- Witness for the amended C8: a non-host id (`"g"`) cannot change the
settings of `stateW`. -/
theorem settings_host_gated_witness :
    handleUpdateSettings "g" stateW settingsAlt = stateW :=
  (settings_host_gated "g" stateW settingsAlt).1 (by decide)

/-! ## C9 — how a guest's local snapshot can change -/

/-- Claim C9, counterexample.  The claim says a non-host peer's local
snapshot only ever changes by `STATE_UPDATE` replacement.  But
`handleToggleReady` mutates the guest's local copy directly ("optimistic
update" in the source): on the guest `"g"` in `lobbyW` it produces a
different snapshot before any network round-trip. -/
theorem ready_toggle_mutates_guest_state :
    isLocalHost "g" lobbyW.players = false ∧ handleToggleReady "g" lobbyW ≠ lobbyW := by
  refine ⟨by decide, by decide⟩

/-- Auxiliary: a successful `findIdx?` points at an element satisfying
the predicate. -/
theorem findIdx?_mem {α : Type} (p : α → Bool) : ∀ (l : List α) (i : Nat),
    l.findIdx? p = some i → ∃ a, l[i]? = some a ∧ p a = true := by
  intro l
  induction l with
  | nil => intro i h; simp at h
  | cons a as ih =>
    intro i h
    rw [List.findIdx?_cons] at h
    by_cases hp : p a = true
    · rw [if_pos hp] at h
      injection h with h'
      subst h'
      exact ⟨a, by simp, hp⟩
    · rw [if_neg hp] at h
      rw [List.findIdx?_succ] at h
      rcases Option.map_eq_some'.mp h with ⟨j, hj, rfl⟩
      obtain ⟨b, hb, hpb⟩ := ih j hj
      exact ⟨b, by simpa using hb, hpb⟩

/-- Auxiliary: writing back the element already stored at an index is the
identity. -/
theorem set_getElem?_self {α : Type} : ∀ (l : List α) (i : Nat) (a : α),
    l[i]? = some a → l.set i a = l := by
  intro l
  induction l with
  | nil => intro i a h; simp at h
  | cons b bs ih =>
    intro i a h
    cases i with
    | zero =>
      have hb : b = a := by simpa using h
      subst hb
      rfl
    | succ j =>
      have h' : bs[j]? = some a := by simpa using h
      show b :: bs.set j a = b :: bs
      rw [ih j a h']

/-- The optimistic ready-toggle touches only the local player's `isReady`
flag: every other state field, every player's id, score and
`hasAnsweredRound` are preserved, and the local player's entry becomes
the same record with `isReady` negated. -/
theorem toggle_local_only (localId : String) (s : GameState) (p0 : Player)
    (hfind : s.players.find? (fun p => p.id == localId) = some p0) :
    (handleToggleReady localId s).roomId = s.roomId ∧
      (handleToggleReady localId s).status = s.status ∧
      (handleToggleReady localId s).currentQuestionIndex = s.currentQuestionIndex ∧
      (handleToggleReady localId s).questions = s.questions ∧
      (handleToggleReady localId s).settings = s.settings ∧
      (handleToggleReady localId s).roundStartTime = s.roundStartTime ∧
      (handleToggleReady localId s).players.map Player.id = s.players.map Player.id ∧
      (handleToggleReady localId s).players.map Player.score = s.players.map Player.score ∧
      (handleToggleReady localId s).players.map Player.hasAnsweredRound
        = s.players.map Player.hasAnsweredRound ∧
      (handleToggleReady localId s).players.find? (fun p => p.id == localId)
        = some { p0 with isReady := !p0.isReady } := by
  have htoggle : handleToggleReady localId s =
      { s with players := s.players.map (fun p =>
          if p.id == localId then { p with isReady := !p.isReady } else p) } := by
    unfold handleToggleReady
    rw [hfind]
  have hid : ∀ p : Player,
      (if p.id == localId then { p with isReady := !p.isReady } else p).id = p.id := by
    intro p; by_cases h : p.id == localId <;> simp [h]
  have hscore : ∀ p : Player,
      (if p.id == localId then { p with isReady := !p.isReady } else p).score = p.score := by
    intro p; by_cases h : p.id == localId <;> simp [h]
  have hans : ∀ p : Player,
      (if p.id == localId then { p with isReady := !p.isReady } else p).hasAnsweredRound
        = p.hasAnsweredRound := by
    intro p; by_cases h : p.id == localId <;> simp [h]
  have hp0 : (p0.id == localId) = true := by
    have h := List.find?_some hfind
    exact h
  rw [htoggle]
  refine ⟨rfl, rfl, rfl, rfl, rfl, rfl, ?_, ?_, ?_, ?_⟩
  · simp only [List.map_map]
    exact List.map_congr_left (fun p _ => hid p)
  · simp only [List.map_map]
    exact List.map_congr_left (fun p _ => hscore p)
  · simp only [List.map_map]
    exact List.map_congr_left (fun p _ => hans p)
  · rw [List.find?_map]
    have hpred : ((fun p : Player => p.id == localId) ∘ (fun p : Player =>
        if p.id == localId then { p with isReady := !p.isReady } else p))
        = (fun p : Player => p.id == localId) := by
      funext p
      simp only [Function.comp_apply]
      by_cases h : (p.id == localId) = true
      · simp [h]
      · simp [h]
    rw [hpred, hfind]
    have hid0 : p0.id = localId := by simpa using hp0
    simp [hid0]

/-- The optimistic profile update touches only the first entry carrying
the local id and only its `name` and `avatar`: every state field, every
player's id, score, `hasAnsweredRound` and `isReady` are preserved, and
at every index the entry is either untouched or is the old local-id
entry with just `name`/`avatar` replaced. -/
theorem profile_local_only (localId : String) (s : GameState)
    (name avatar : String) :
    (handleUpdatePlayer localId s name avatar).roomId = s.roomId ∧
      (handleUpdatePlayer localId s name avatar).status = s.status ∧
      (handleUpdatePlayer localId s name avatar).currentQuestionIndex
        = s.currentQuestionIndex ∧
      (handleUpdatePlayer localId s name avatar).questions = s.questions ∧
      (handleUpdatePlayer localId s name avatar).settings = s.settings ∧
      (handleUpdatePlayer localId s name avatar).roundStartTime = s.roundStartTime ∧
      (handleUpdatePlayer localId s name avatar).players.map Player.id
        = s.players.map Player.id ∧
      (handleUpdatePlayer localId s name avatar).players.map Player.score
        = s.players.map Player.score ∧
      (handleUpdatePlayer localId s name avatar).players.map Player.hasAnsweredRound
        = s.players.map Player.hasAnsweredRound ∧
      (handleUpdatePlayer localId s name avatar).players.map Player.isReady
        = s.players.map Player.isReady ∧
      ∀ i : Nat, (handleUpdatePlayer localId s name avatar).players[i]? = s.players[i]? ∨
        ∃ p, s.players[i]? = some p ∧ p.id = localId ∧
          (handleUpdatePlayer localId s name avatar).players[i]? =
            some { p with name := name, avatar := avatar } := by
  have hprof : handleUpdatePlayer localId s name avatar = s ∨
      ∃ (i : Nat) (p : Player), s.players[i]? = some p ∧ (p.id == localId) = true ∧
        handleUpdatePlayer localId s name avatar =
          { s with players := s.players.set i { p with name := name, avatar := avatar } } := by
    unfold handleUpdatePlayer
    cases hidx : s.players.findIdx? (fun p => p.id == localId) with
    | none => exact Or.inl rfl
    | some i =>
      obtain ⟨p, hp, hpid⟩ := findIdx?_mem (fun p => p.id == localId) s.players i hidx
      dsimp only
      rw [hp]
      exact Or.inr ⟨i, p, hp, hpid, rfl⟩
  rcases hprof with heq | ⟨i, p, hp, hpid, heq⟩
  · rw [heq]
    exact ⟨rfl, rfl, rfl, rfl, rfl, rfl, rfl, rfl, rfl, rfl, fun j => Or.inl rfl⟩
  · have hlt : i < s.players.length := by
      rcases List.getElem?_eq_some.mp hp with ⟨h, -⟩
      exact h
    have hmapf : ∀ (T : Type) (f : Player → T),
        f { p with name := name, avatar := avatar } = f p →
        (handleUpdatePlayer localId s name avatar).players.map f = s.players.map f := by
      intro T f hf
      rw [heq]
      show (s.players.set i _).map f = _
      rw [List.map_set, hf]
      apply set_getElem?_self
      rw [List.getElem?_map, hp]
      rfl
    refine ⟨by rw [heq], by rw [heq], by rw [heq], by rw [heq], by rw [heq], by rw [heq],
      hmapf _ Player.id rfl, hmapf _ Player.score rfl, hmapf _ Player.hasAnsweredRound rfl,
      hmapf _ Player.isReady rfl, ?_⟩
    intro j
    by_cases hij : i = j
    · subst hij
      refine Or.inr ⟨p, hp, by simpa using hpid, ?_⟩
      rw [heq]
      show (s.players.set i _)[i]? = _
      rw [List.getElem?_set_self hlt]
    · refine Or.inl ?_
      rw [heq]
      show (s.players.set i _)[j]? = _
      rw [List.getElem?_set_ne hij]

/-- Claim C9, amended.  On a non-host peer the replicated snapshot changes
by unconditional replacement with a received `STATE_UPDATE` payload, and
additionally by the two guest-side optimistic updates: the ready-toggle
flips only the local player's `isReady` flag, and the profile update
rewrites only the local player's `name` and `avatar` — both preserve
every other state field, every player's id, score and `hasAnsweredRound`
(and the profile update also every `isReady`).  All host-guarded entry
points are identities on such a peer: the settings update, the
`JOIN_REQUEST` handler (which also sends nothing), and the
`PLAYER_ACTION` and `PLAYER_UPDATE` message cases. -/
theorem guest_state_changes (localId : String) (s payload : GameState)
    (senderId name avatar : String) (ns : GameSettings) (a : PAction)
    (data : String) (now : Int) (p0 : Player)
    (hhost : isLocalHost localId s.players = false)
    (hfind : s.players.find? (fun p => p.id == localId) = some p0)
    (hsender : senderId ≠ localId) :
    applyStateUpdate localId s payload senderId = payload ∧
      (handleUpdateSettings localId s ns = s ∧
        handleJoinRequest localId s senderId name avatar = (s, false) ∧
        handlePlayerActionMsg localId s senderId a data now = s ∧
        handlePlayerUpdateMsg localId s senderId name avatar = s) ∧
      ((handleToggleReady localId s).roomId = s.roomId ∧
        (handleToggleReady localId s).status = s.status ∧
        (handleToggleReady localId s).currentQuestionIndex = s.currentQuestionIndex ∧
        (handleToggleReady localId s).questions = s.questions ∧
        (handleToggleReady localId s).settings = s.settings ∧
        (handleToggleReady localId s).roundStartTime = s.roundStartTime ∧
        (handleToggleReady localId s).players.map Player.id = s.players.map Player.id ∧
        (handleToggleReady localId s).players.map Player.score
          = s.players.map Player.score ∧
        (handleToggleReady localId s).players.map Player.hasAnsweredRound
          = s.players.map Player.hasAnsweredRound ∧
        (handleToggleReady localId s).players.find? (fun p => p.id == localId)
          = some { p0 with isReady := !p0.isReady }) ∧
      ((handleUpdatePlayer localId s name avatar).roomId = s.roomId ∧
        (handleUpdatePlayer localId s name avatar).status = s.status ∧
        (handleUpdatePlayer localId s name avatar).currentQuestionIndex
          = s.currentQuestionIndex ∧
        (handleUpdatePlayer localId s name avatar).questions = s.questions ∧
        (handleUpdatePlayer localId s name avatar).settings = s.settings ∧
        (handleUpdatePlayer localId s name avatar).roundStartTime = s.roundStartTime ∧
        (handleUpdatePlayer localId s name avatar).players.map Player.id
          = s.players.map Player.id ∧
        (handleUpdatePlayer localId s name avatar).players.map Player.score
          = s.players.map Player.score ∧
        (handleUpdatePlayer localId s name avatar).players.map Player.hasAnsweredRound
          = s.players.map Player.hasAnsweredRound ∧
        (handleUpdatePlayer localId s name avatar).players.map Player.isReady
          = s.players.map Player.isReady ∧
        ∀ i : Nat,
          (handleUpdatePlayer localId s name avatar).players[i]? = s.players[i]? ∨
            ∃ p, s.players[i]? = some p ∧ p.id = localId ∧
              (handleUpdatePlayer localId s name avatar).players[i]? =
                some { p with name := name, avatar := avatar }) := by
  have e1 : (senderId == localId) = false := by simpa using hsender
  have hupd : applyStateUpdate localId s payload senderId = payload := by
    unfold applyStateUpdate
    simp [hsender, hhost]
  have hset : handleUpdateSettings localId s ns = s := by
    unfold handleUpdateSettings
    simp [hhost]
  have hjoin : handleJoinRequest localId s senderId name avatar = (s, false) := by
    unfold handleJoinRequest
    by_cases e2 : (senderId == "") = true
    · simp [e1, e2]
    · simp only [Bool.not_eq_true] at e2
      simp [e1, e2, hhost]
  have hpam : handlePlayerActionMsg localId s senderId a data now = s := by
    unfold handlePlayerActionMsg
    simp [e1, hhost]
  have hpum : handlePlayerUpdateMsg localId s senderId name avatar = s := by
    unfold handlePlayerUpdateMsg
    simp [e1, hhost]
  exact ⟨hupd, ⟨hset, hjoin, hpam, hpum⟩,
    toggle_local_only localId s p0 hfind,
    profile_local_only localId s name avatar⟩

/-- Witness for the amended C9: a guest applies a received `STATE_UPDATE`
payload by wholesale replacement. -/
theorem guest_state_changes_witness :
    applyStateUpdate "g" lobbyW stateW "h" = stateW :=
  (guest_state_changes "g" lobbyW stateW "h" "Nina" "N" settingsAlt
    PAction.readyToggle "x" 0 guestW (by decide) (by decide) (by decide)).1

/-! ## C6 — does the host answer every JOIN_REQUEST with a STATE_UPDATE? -/

/-- Claim C6, counterexample.  The claim says the host sends a `STATE_UPDATE`
for *every* `JOIN_REQUEST`, even for an already-known sender id.  In the
operative handler (part_001) a request whose sender is already in the
player list is dropped without any send: in `stateW` the host `"h"`
receives a join request from the known guest `"g"` and initiates no
`STATE_UPDATE` (the `Bool` component is the handler's send decision). -/
theorem join_reply_skipped_for_known_id :
    isLocalHost "h" stateW.players = true ∧
      stateW.players.any (fun p => p.id == "g") = true ∧
      handleJoinRequest "h" stateW "g" "Guest" "G" = (stateW, false) := by
  refine ⟨by decide, by decide, by decide⟩

/-- Claim C6, amended.  For a valid `JOIN_REQUEST` received by a peer that
resolves itself as host, the handler initiates a `STATE_UPDATE` send iff
the sender id is *not* yet in the player list; for an already-known id it
leaves the state unchanged and sends nothing (re-sync of known peers is
instead covered by the host's periodic 2-second broadcast loop). -/
theorem join_reply_iff_new (localId : String) (s : GameState)
    (senderId name avatar : String)
    (h1 : senderId ≠ localId) (h2 : senderId ≠ "")
    (h3 : isLocalHost localId s.players = true)
    (h4 : name ≠ "") (h5 : avatar ≠ "") :
    ((handleJoinRequest localId s senderId name avatar).2 = true ↔
      s.players.any (fun p => p.id == senderId) = false) ∧
      (s.players.any (fun p => p.id == senderId) = true →
        handleJoinRequest localId s senderId name avatar = (s, false)) := by
  unfold handleJoinRequest
  simp only [beq_iff_eq, h1, h2, h3, h4, h5, if_false, ite_false, Bool.not_true,
    or_self, if_neg, not_false_eq_true, ne_eq]
  by_cases hA : s.players.any (fun p => p.id == senderId) = true
  · simp [hA]
  · simp only [Bool.not_eq_true] at hA
    simp [hA, h4, h5]

/-- Witness for the amended C6: a brand-new sender id (`"n"`) does trigger
the `STATE_UPDATE` send. -/
theorem join_reply_iff_new_witness :
    (handleJoinRequest "h" stateW "n" "Nina" "N").2 = true :=
  ((join_reply_iff_new "h" stateW "n" "Nina" "N" (by decide) (by decide)
    (by decide) (by decide) (by decide)).1).mpr (by decide)

/-! ## C4 — idempotent join -/

/-- Appending a non-host player does not change who resolves as host. -/
theorem isLocalHost_append (localId : String) (l : List Player) (p : Player)
    (hp : p.isHost = false) :
    isLocalHost localId (l ++ [p]) = isLocalHost localId l := by
  unfold isLocalHost
  rw [List.find?_append]
  cases h : l.find? (fun q => q.isHost) with
  | some q => simp
  | none => simp [List.find?, hp]

/-- Claim C4.  Processing two `JOIN_REQUEST`s with the same (valid) sender
id on a host whose player list does not contain that id: the first
appends exactly one entry (every pre-existing record surviving
unchanged), and the second is a no-op, so afterwards the list holds
exactly one entry with that id. -/
theorem join_request_idempotent (localId : String) (s : GameState)
    (senderId name avatar : String)
    (h1 : senderId ≠ localId) (h2 : senderId ≠ "")
    (h3 : isLocalHost localId s.players = true)
    (h4 : name ≠ "") (h5 : avatar ≠ "")
    (habs : ∀ p ∈ s.players, p.id ≠ senderId) :
    (handleJoinRequest localId
        (handleJoinRequest localId s senderId name avatar).1 senderId name avatar).1
      = (handleJoinRequest localId s senderId name avatar).1 ∧
      (((handleJoinRequest localId s senderId name avatar).1.players.filter
          (fun p => p.id == senderId)).length = 1) ∧
      (handleJoinRequest localId s senderId name avatar).1.players.length
        = s.players.length + 1 ∧
      ∀ p ∈ s.players, p ∈ (handleJoinRequest localId s senderId name avatar).1.players := by
  have hany : s.players.any (fun p => p.id == senderId) = false := by
    rw [List.any_eq_false]
    intro p hp
    simpa using habs p hp
  have hfirst : handleJoinRequest localId s senderId name avatar =
      ({ s with players := s.players ++
          [{ id := senderId, name := name, avatar := avatar, score := 0, streak := 0,
             isHost := false, isReady := false, hasAnsweredRound := false,
             isBot := false }] }, true) := by
    unfold handleJoinRequest
    simp [h1, h2, h3, h4, h5, hany]
  rw [hfirst]
  refine ⟨?_, ?_, ?_, ?_⟩
  · unfold handleJoinRequest
    have hh : isLocalHost localId (s.players ++
        [{ id := senderId, name := name, avatar := avatar, score := 0, streak := 0,
           isHost := false, isReady := false, hasAnsweredRound := false,
           isBot := false : Player }]) = true := by
      rw [isLocalHost_append _ _ _ rfl]; exact h3
    simp [h1, h2, h3, h4, h5, hh]
  · have hfil : s.players.filter (fun p => p.id == senderId) = [] := by
      rw [List.filter_eq_nil_iff]
      intro p hp
      simpa using habs p hp
    simp [List.filter_append, hfil]
  · simp
  · intro p hp
    simp [hp]

/-- Closed instance of C4 on `soloLobbyW`. -/
theorem join_request_idempotent_witness :
    ((handleJoinRequest "h" soloLobbyW "g" "Guest" "G").1.players.filter
        (fun p => p.id == "g")).length = 1 :=
  (join_request_idempotent "h" soloLobbyW "g" "Guest" "G" (by decide) (by decide)
    (by decide) (by decide) (by decide) (by decide)).2.1

/-! ## C1 — at most one scoring per round -/

/-- Claim C1.  For `ANSWER_CORRECT` from a player whose `hasAnsweredRound`
is still `false`, the first action updates exactly the entries carrying
that id — adding the fixed 10 points, setting `hasAnsweredRound`,
recording the elapsed time `now - roundStartTime` and the submitted
answer text (`data || undefined`) — and leaves every other player and
every other state field alone; afterwards every entry with that id has
`hasAnsweredRound = true`, and from *any* state in which the player's
entry has `hasAnsweredRound = true`, an `ANSWER_CORRECT` from that id is
the identity, so any further sequence of `ANSWER_CORRECT` actions from
the same id (arbitrary guesses and times) leaves the state unchanged. -/
theorem answer_scored_once (s : GameState) (pid data : String) (now : Int)
    (p0 : Player)
    (hfind : s.players.find? (fun p => p.id == pid) = some p0)
    (hflag : p0.hasAnsweredRound = false) :
    (∀ i : Nat, (handlePlayerAction s pid .answerCorrect data now).players[i]? =
        (s.players[i]?).map (fun p =>
          if p.id == pid then
            { p with score := p.score + 10, hasAnsweredRound := true,
                     answerTime := some (now - s.roundStartTime),
                     finalAnswer := if data == "" then none else some data }
          else p)) ∧
      (handlePlayerAction s pid .answerCorrect data now).status = s.status ∧
      (handlePlayerAction s pid .answerCorrect data now).roundStartTime
        = s.roundStartTime ∧
      (∀ q ∈ (handlePlayerAction s pid .answerCorrect data now).players,
          q.id = pid → q.hasAnsweredRound = true) ∧
      (∀ (s' : GameState) (d' : String) (n' : Int) (p1 : Player),
          s'.players.find? (fun p => p.id == pid) = some p1 →
          p1.hasAnsweredRound = true →
          handlePlayerAction s' pid .answerCorrect d' n' = s') ∧
      (∀ rest : List (String × Int),
          rest.foldl (fun st x => handlePlayerAction st pid .answerCorrect x.1 x.2)
            (handlePlayerAction s pid .answerCorrect data now)
          = handlePlayerAction s pid .answerCorrect data now) := by
  have hnoop : ∀ (s' : GameState) (d' : String) (n' : Int) (p1 : Player),
      s'.players.find? (fun p => p.id == pid) = some p1 →
      p1.hasAnsweredRound = true →
      handlePlayerAction s' pid .answerCorrect d' n' = s' := by
    intro s' d' n' p1 hfind' hflag'
    unfold handlePlayerAction
    rw [hfind']
    simp [hflag']
  have h1 : handlePlayerAction s pid .answerCorrect data now =
      { s with players := s.players.map (fun p =>
          if p.id == pid then
            { p with score := p.score + 10, hasAnsweredRound := true,
                     answerTime := some (now - s.roundStartTime),
                     finalAnswer := if data == "" then none else some data }
          else p) } := by
    unfold handlePlayerAction
    rw [hfind]
    simp [hflag]
  have hp0 : (p0.id == pid) = true := by
    have h := List.find?_some hfind
    exact h
  have hidkeep : ∀ p : Player,
      ((fun p : Player =>
        if p.id == pid then
          { p with score := p.score + 10, hasAnsweredRound := true,
                   answerTime := some (now - s.roundStartTime),
                   finalAnswer := if data == "" then none else some data }
        else p) p).id = p.id := by
    intro p; by_cases h : (p.id == pid) = true <;> simp [h]
  refine ⟨?_, ?_, ?_, ?_, hnoop, ?_⟩
  · intro i
    rw [h1]
    exact List.getElem?_map _ _ _
  · rw [h1]
  · rw [h1]
  · rw [h1]
    intro q hq hqid
    rcases List.mem_map.mp hq with ⟨p, hp, rfl⟩
    by_cases h : (p.id == pid) = true
    · simp [h]
    · rw [if_neg (by simpa using h)] at hqid ⊢
      exact absurd (by simpa using hqid) (by simpa using h)
  · -- the flag of the pid entry is true in the post-state, so every
    -- further ANSWER_CORRECT from pid is the identity
    have hfind1 : (handlePlayerAction s pid .answerCorrect data now).players.find?
        (fun p => p.id == pid) = some
          { p0 with score := p0.score + 10, hasAnsweredRound := true,
                    answerTime := some (now - s.roundStartTime),
                    finalAnswer := if data == "" then none else some data } := by
      rw [h1]
      show (s.players.map _).find? _ = _
      rw [List.find?_map]
      have hpred : ((fun p : Player => p.id == pid) ∘ (fun p : Player =>
          if p.id == pid then
            { p with score := p.score + 10, hasAnsweredRound := true,
                     answerTime := some (now - s.roundStartTime),
                     finalAnswer := if data == "" then none else some data }
          else p)) = (fun p : Player => p.id == pid) := by
        funext p
        simp only [Function.comp_apply]
        rw [hidkeep p]
      rw [hpred, hfind]
      have hid0 : p0.id = pid := by simpa using hp0
      simp [hid0]
    have hstep : ∀ d' n',
        handlePlayerAction (handlePlayerAction s pid .answerCorrect data now)
          pid .answerCorrect d' n'
        = handlePlayerAction s pid .answerCorrect data now := by
      intro d' n'
      exact hnoop _ d' n' _ hfind1 rfl
    intro rest
    induction rest with
    | nil => rfl
    | cons x xs ih =>
      rw [List.foldl_cons, hstep x.1 x.2]
      exact ih

/-- Witness for C1: in `stateW` the guest scores once at time 3000; a
repeated `ANSWER_CORRECT` at time 9000 changes nothing. -/
theorem answer_scored_once_witness :
    handlePlayerAction (handlePlayerAction stateW "g" .answerCorrect "Titanic" 3000)
        "g" .answerCorrect "titanik" 9000
      = handlePlayerAction stateW "g" .answerCorrect "Titanic" 3000 := by
  have h := answer_scored_once stateW "g" "Titanic" 3000 guestW (by decide) (by decide)
  have h2 := h.2.2.2.2.2 [("titanik", 9000)]
  simpa [List.foldl] using h2

/-! ## C7 — monotonic scores -/

/-- Mapping a pointwise score-non-decreasing function over the player list
does not decrease the score at any index. -/
theorem scoreAt_le_of_map (l : List Player) (f : Player → Player) (i : Nat)
    (hf : ∀ p, p.score ≤ (f p).score) :
    (((l[i]?).map Player.score).getD 0)
      ≤ ((((l.map f)[i]?).map Player.score).getD 0) := by
  rw [List.getElem?_map]
  cases h : l[i]? with
  | none => simp
  | some p => simpa using hf p

/-- The value `scoreAt` only looks at the player list. -/
theorem scoreAt_congr (s t : GameState) (i : Nat) (h : t.players = s.players) :
    scoreAt t i = scoreAt s i := by
  unfold scoreAt; rw [h]

/-- No single in-game step lowers the score at any index. -/
theorem scoreAt_applyStep (s : GameState) (st : HStep) (i : Nat) :
    scoreAt s i ≤ scoreAt (applyStep s st) i := by
  cases st with
  | act pid a data now =>
    show scoreAt s i ≤ scoreAt (handlePlayerAction s pid a data now) i
    cases a with
    | readyToggle =>
      apply scoreAt_le_of_map
      intro p; by_cases h : (p.id == pid) = true <;> simp [h]
    | answerCorrect =>
      unfold handlePlayerAction
      cases hfd : s.players.find? (fun p => p.id == pid) with
      | none => exact le_refl _
      | some pl =>
        by_cases hfl : pl.hasAnsweredRound = true
        · simp only [hfl, if_true]
          exact le_refl _
        · simp only [Bool.not_eq_true] at hfl
          simp only [hfl, Bool.false_eq_true, if_false]
          apply scoreAt_le_of_map
          intro p; by_cases h : (p.id == pid) = true <;> simp [h]
    | answerWrong =>
      apply scoreAt_le_of_map
      intro p; by_cases h : (p.id == pid) = true <;> simp [h]
  | tick now =>
    have h : (gameLoopTick s now).players = s.players := by
      unfold gameLoopTick
      dsimp only
      split
      · split <;> rfl
      · rfl
    exact le_of_eq (scoreAt_congr s (gameLoopTick s now) i h).symm
  | next now =>
    show scoreAt s i ≤ scoreAt (processNextRound s now) i
    unfold processNextRound
    repeat' split
    all_goals first
      | exact le_refl _
      | (apply scoreAt_le_of_map; intro p; simp)

/-- No single in-game step changes the list of player ids. -/
theorem ids_applyStep (s : GameState) (st : HStep) :
    (applyStep s st).players.map Player.id = s.players.map Player.id := by
  have hmap : ∀ (f : Player → Player), (∀ p : Player, (f p).id = p.id) →
      (s.players.map f).map Player.id = s.players.map Player.id := by
    intro f hf
    rw [List.map_map]
    exact List.map_congr_left (fun p _ => hf p)
  cases st with
  | act pid a data now =>
    show (handlePlayerAction s pid a data now).players.map Player.id = _
    cases a with
    | readyToggle =>
      apply hmap; intro p; by_cases h : (p.id == pid) = true <;> simp [h]
    | answerCorrect =>
      unfold handlePlayerAction
      cases hfd : s.players.find? (fun p => p.id == pid) with
      | none => rfl
      | some pl =>
        by_cases hfl : pl.hasAnsweredRound = true
        · simp only [hfl, if_true]
        · simp only [Bool.not_eq_true] at hfl
          simp only [hfl, Bool.false_eq_true, if_false]
          apply hmap; intro p; by_cases h : (p.id == pid) = true <;> simp [h]
    | answerWrong =>
      apply hmap; intro p; by_cases h : (p.id == pid) = true <;> simp [h]
  | tick now =>
    have h : (gameLoopTick s now).players = s.players := by
      unfold gameLoopTick
      dsimp only
      split
      · split <;> rfl
      · rfl
    show List.map Player.id (gameLoopTick s now).players = List.map Player.id s.players
    rw [h]
  | next now =>
    show (processNextRound s now).players.map Player.id = _
    unfold processNextRound
    repeat' split
    all_goals first
      | rfl
      | (apply hmap; intro p; simp)

/-- Claim C7.  Across any sequence of host-processed in-game steps
(`PLAYER_ACTION`s, game-loop ticks and `processNextRound` evaluations —
the transitions available between game start and `game_over`), every
player's score is non-decreasing, and no step adds, removes or renames a
player. -/
theorem scores_monotonic (s : GameState) (steps : List HStep) (i : Nat) :
    scoreAt s i ≤ scoreAt (applySteps s steps) i ∧
      (applySteps s steps).players.map Player.id = s.players.map Player.id := by
  induction steps generalizing s with
  | nil => exact ⟨le_refl _, rfl⟩
  | cons st rest ih =>
    have hs : applySteps s (st :: rest) = applySteps (applyStep s st) rest := by
      unfold applySteps
      rw [List.foldl_cons]
    rw [hs]
    refine ⟨le_trans (scoreAt_applyStep s st i) (ih (applyStep s st)).1, ?_⟩
    rw [(ih (applyStep s st)).2, ids_applyStep s st]

/-! ## C2 — end-of-game rule -/

/-- The first disjunct of `isGameOverCheck`, for an arbitrary
potential-winner list `pw`: it is `true` iff `pw` is non-empty and
exactly one of its members attains its maximum score (a singleton always
qualifies; with several members this is the source's tie-breaker). -/
theorem gameOverFlag_iff (pw : List Player) :
    (if (pw.length == 1) = true then true
     else if 1 < pw.length then
       ((pw.filter (fun p =>
          p.score == pw.foldl (fun m q => max m q.score) 0)).length == 1 : Bool)
     else false) = true
    ↔ (pw ≠ [] ∧ (pw.filter (fun p =>
        p.score == pw.foldl (fun m q => max m q.score) 0)).length = 1) := by
  match pw with
  | [] => simp
  | [p] =>
    simp [Nat.zero_max]
  | p :: q :: rest =>
    have h1 : ((p :: q :: rest).length == 1) = false := by
      rw [beq_eq_false_iff_ne]
      simp only [List.length_cons]
      omega
    have h2 : 1 < (p :: q :: rest).length := by
      simp only [List.length_cons]
      omega
    simp [h1, h2]

/-- Claim C2, counterexample.  The claim allows `game_over` only when
*exactly one* player is at or above `pointsToWin` (or on question
exhaustion).  In `leaderW` *two* players are at or above the threshold
(60 and 50 against 50) and the questions are not exhausted, yet the
evaluation ends the game, because the code's tie-breaker only continues
on a *tie at the top*, not whenever several players reach the
threshold. -/
theorem game_over_with_two_above_threshold :
    (processNextRound leaderW 0).status = GameStatus.game_over ∧
      (leaderW.players.filter
        (fun p => decide (leaderW.settings.pointsToWin ≤ p.score))).length = 2 ∧
      ¬ (leaderW.questions.length - 1 ≤ leaderW.currentQuestionIndex) := by
  refine ⟨by decide, by decide, by decide⟩

/-- Claim C2, amended.  The end-of-round evaluation transitions to
`game_over` iff (i′) at least one player is at or above `pointsToWin`
and exactly one of those players attains the top score among them, or
(ii) the next index would exceed the question list.  In particular a tie
at the top among the threshold-reachers with the question supply not
exhausted does not end the game: the evaluation continues to another
round (`playing`, next question index). -/
theorem game_over_iff (s : GameState) (now : Int) :
    ((processNextRound s now).status = GameStatus.game_over ↔
      ((s.players.filter (fun p => decide (s.settings.pointsToWin ≤ p.score)) ≠ [] ∧
        ((s.players.filter (fun p => decide (s.settings.pointsToWin ≤ p.score))).filter
          (fun p => p.score ==
            (s.players.filter (fun p => decide (s.settings.pointsToWin ≤ p.score))).foldl
              (fun m q => max m q.score) 0)).length = 1) ∨
        s.questions.length - 1 ≤ s.currentQuestionIndex)) ∧
      (2 ≤ ((s.players.filter (fun p => decide (s.settings.pointsToWin ≤ p.score))).filter
          (fun p => p.score ==
            (s.players.filter (fun p => decide (s.settings.pointsToWin ≤ p.score))).foldl
              (fun m q => max m q.score) 0)).length →
        ¬ s.questions.length - 1 ≤ s.currentQuestionIndex →
        (processNextRound s now).status = GameStatus.playing ∧
          (processNextRound s now).currentQuestionIndex = s.currentQuestionIndex + 1) := by
  have hflag : isGameOverCheck s = true ↔
      ((s.players.filter (fun p => decide (s.settings.pointsToWin ≤ p.score)) ≠ [] ∧
        ((s.players.filter (fun p => decide (s.settings.pointsToWin ≤ p.score))).filter
          (fun p => p.score ==
            (s.players.filter (fun p => decide (s.settings.pointsToWin ≤ p.score))).foldl
              (fun m q => max m q.score) 0)).length = 1) ∨
        s.questions.length - 1 ≤ s.currentQuestionIndex) := by
    unfold isGameOverCheck
    rw [Bool.or_eq_true, decide_eq_true_eq,
      gameOverFlag_iff (s.players.filter (fun p => decide (s.settings.pointsToWin ≤ p.score)))]
  have hiff : (processNextRound s now).status = GameStatus.game_over ↔
      ((s.players.filter (fun p => decide (s.settings.pointsToWin ≤ p.score)) ≠ [] ∧
        ((s.players.filter (fun p => decide (s.settings.pointsToWin ≤ p.score))).filter
          (fun p => p.score ==
            (s.players.filter (fun p => decide (s.settings.pointsToWin ≤ p.score))).foldl
              (fun m q => max m q.score) 0)).length = 1) ∨
        s.questions.length - 1 ≤ s.currentQuestionIndex) := by
    rw [← hflag]
    unfold processNextRound
    by_cases h : isGameOverCheck s = true
    · simp [h]
    · simp only [Bool.not_eq_true] at h
      simp [h]
  refine ⟨hiff, ?_⟩
  intro htie hnoex
  have hnot : ¬ (processNextRound s now).status = GameStatus.game_over := by
    rw [hiff]
    rintro (⟨-, hone⟩ | hex)
    · omega
    · exact hnoex hex
  have h : isGameOverCheck s ≠ true := by
    intro h
    exact hnot (by unfold processNextRound; simp [h])
  simp only [Bool.not_eq_true] at h
  unfold processNextRound
  rw [h]
  exact ⟨rfl, rfl⟩

/-- Witness for the amended C2: with both players tied at the threshold
(`tieW`) the evaluation continues to another round rather than ending
the game. -/
theorem game_over_iff_witness :
    (processNextRound tieW 99).status = GameStatus.playing ∧
      (processNextRound tieW 99).currentQuestionIndex = 1 :=
  (game_over_iff tieW 99).2 (by decide) (by decide)

/-! ## Normalization lemmas for the matcher claims -/

/-- Every character of a normalized string is in `[a-z0-9]`. -/
theorem mem_normChars_keep {c : Char} {l : List Char} (h : c ∈ normChars l) :
    isKeep c = true :=
  (List.mem_filter.mp h).2

/-- Lowercasing fixes `[a-z0-9]`. -/
theorem jsLower_keep (c : Char) (h : isKeep c = true) : jsLower c = c := by
  unfold isKeep at h
  rw [decide_eq_true_eq] at h
  unfold jsLower
  rw [if_neg (by omega)]

/-- Characters in `[a-z0-9]` are never whitespace. -/
theorem ws_keep_false (c : Char) (h : isKeep c = true) : isWs c = false := by
  unfold isKeep at h
  rw [decide_eq_true_eq] at h
  unfold isWs
  rw [decide_eq_false_iff_not]
  omega

/-- Lowercasing a normalized string changes nothing. -/
theorem map_jsLower_normChars (l : List Char) :
    (normChars l).map jsLower = normChars l := by
  rw [show (normChars l).map jsLower = (normChars l).map id from
    List.map_congr_left (fun c hc => jsLower_keep c (mem_normChars_keep hc)),
    List.map_id]

/-- Normalization is idempotent. -/
theorem normChars_idem (l : List Char) :
    normChars (normChars l) = normChars l := by
  show ((normChars l).map jsLower).filter isKeep = normChars l
  rw [map_jsLower_normChars]
  exact List.filter_eq_self.mpr (fun c hc => mem_normChars_keep hc)

/-- A `dropWhile` is the identity when no element satisfies the predicate. -/
theorem dropWhile_eq_self_of (p : Char → Bool) (l : List Char)
    (h : ∀ c ∈ l, p c = false) : l.dropWhile p = l := by
  cases l with
  | nil => rfl
  | cons c cs =>
    rw [List.dropWhile_cons, h c (List.mem_cons_self c cs)]
    simp

/-- Applying `trim().toLowerCase()` fixes an already fully normalized string. -/
theorem trimLower_normChars (l : List Char) :
    trimLower (normChars l) = normChars l := by
  have hws : ∀ c ∈ normChars l, isWs c = false :=
    fun c hc => ws_keep_false c (mem_normChars_keep hc)
  unfold trimLower trimChars
  rw [dropWhile_eq_self_of _ _ hws,
    dropWhile_eq_self_of _ _ (fun c hc => hws c (List.mem_reverse.mp hc)),
    List.reverse_reverse, map_jsLower_normChars]

/-! ## C5 — exact and fuzzy matching of the canonical answer -/

/-- Claim C5, counterexample.  The claim says every input that normalizes to
the normalized canonical answer is accepted.  For the answer `"???"` the
input `"!!"` normalizes identically (both to the empty string), yet
`checkAnswer` rejects it — `checkSingleSimilarity` returns `false`
outright for an empty normalized target, and so does `isAbbreviation`. -/
theorem empty_normalized_match_rejected :
    normalize "!!" = normalize "???" ∧ checkAnswer "!!" mysteryQ = false := by
  refine ⟨by decide, by decide⟩

/-- Claim C5, amended.  Whenever the canonical answer's normalized form is
*non-empty*, every input with the same normalized form is accepted; and
on the spec's concrete case — canonical answer `"Titanic"` — the input
`"titanik"` is accepted (edit distance 1 over length 7, similarity
6/7 ≈ 0.857 ≥ 0.80) while `"boat movie"` is rejected. -/
theorem exact_match_accepts :
    (∀ (input : String) (q : Question),
        normalize input = normalize q.answer → normalize q.answer ≠ "" →
        checkAnswer input q = true) ∧
      checkAnswer "titanik" titanicQ = true ∧
      checkAnswer "boat movie" titanicQ = false := by
  refine ⟨?_, by decide, by decide⟩
  intro input q heq hne
  have hdata : normChars input.data = normChars q.answer.data :=
    congrArg String.data heq
  have hlen : ((normChars q.answer.data).length == 0) = false := by
    rw [beq_eq_false_iff_ne]
    intro h0
    apply hne
    show (⟨normChars q.answer.data⟩ : String) = ""
    rw [List.length_eq_zero.mp h0]
  have hsingle : checkSingleSimilarity input q.answer = true := by
    unfold checkSingleSimilarity
    rw [hdata]
    simp [hlen]
  unfold checkAnswer
  rw [hsingle]
  simp

/-- Witness for the amended C5: `" TITANIC "` normalizes exactly to the
normalized canonical answer and is accepted. -/
theorem exact_match_accepts_witness : checkAnswer " TITANIC " titanicQ = true :=
  exact_match_accepts.1 " TITANIC " titanicQ (by decide) (by decide)

/-! ## C10 — the substring rule accepts short fragments -/

/-- Claim C10.  Any input whose normalized form has length at least 2 and
occurs as a contiguous substring of the normalized canonical answer is
accepted: either it equals the whole normalized answer, or
`isAbbreviation`'s substring rule (`cleanTarget.includes(cleanInput) &&
cleanInput.length >= 2`) fires before the edit-distance similarity is
consulted. -/
theorem substring_accepted (input : String) (q : Question)
    (h2 : 2 ≤ (normChars input.data).length)
    (hsub : containsSub (normChars q.answer.data) (normChars input.data) = true) :
    checkAnswer input q = true := by
  have hctne : normChars q.answer.data ≠ [] := by
    intro h0
    rw [h0] at hsub
    cases hci : normChars input.data with
    | nil => rw [hci] at h2; simp at h2
    | cons c cs =>
      rw [hci] at hsub
      unfold containsSub at hsub
      simp [startsWithB] at hsub
  have hlen0 : ((normChars q.answer.data).length == 0) = false := by
    rw [beq_eq_false_iff_ne]
    intro h
    exact hctne (List.length_eq_zero.mp h)
  have hci0 : ((normChars input.data).length == 0) = false := by
    rw [beq_eq_false_iff_ne]
    omega
  have hsingle : checkSingleSimilarity input q.answer = true := by
    unfold checkSingleSimilarity
    by_cases heq : (normChars input.data == normChars q.answer.data) = true
    · simp [hlen0, heq]
    · have habbr : isAbbreviation ⟨normChars input.data⟩ ⟨normChars q.answer.data⟩ = true := by
        unfold isAbbreviation
        show (if (normChars (normChars input.data)).length == 0
            || (trimLower (normChars q.answer.data)).length == 0 then false else _) = true
        rw [normChars_idem, trimLower_normChars]
        simp only [hci0, hlen0, Bool.or_self, Bool.false_eq_true, if_false]
        simp [hsub, h2]
      simp [hlen0, heq, habbr]
  unfold checkAnswer
  rw [hsingle]
  simp

/-- Witness for C10: the guess `"it"` is accepted for `"Titanic"` (its
normalized form `it` is a length-2 substring of `titanic`). -/
theorem substring_accepted_witness : checkAnswer "it" titanicQ = true :=
  substring_accepted "it" titanicQ (by decide) (by decide)

end Popquiz
